import Mathlib

/-!
Verification of the legacy-credential migration and fallback-authentication
mechanism of the tjdests application.

The definitions below are a shallow embedding of:
  - tjdests/apps/authentication/models.py   (User, PasswordHash)
  - tjdests/apps/authentication/backends.py (AdditionalHashBackend.authenticate)
  - tjdests/apps/authentication/middleware.py (PasswordResetRequiredMiddleware)
  - tjdests/apps/authentication/views.py    (force_password_reset_view)
  - import_users.py                         (import_users_from_json, per-user step)

Django framework primitives are modelled as follows:
  - make_password / check_password: the salted hash is modelled as an injective
    tagging of the plaintext; check_password compares a plaintext against a
    stored hash string.  Constant-time comparison is a timing property with no
    functional content, so it is not reflected in the embedding.
  - timezone.now(): an explicit natural-number clock value passed in.
  - the Django session: a record holding the optional needs_password_reset key
    (absent = the key is not in the session dict).
  - ModelBackend.user_can_authenticate: returns the user's is_active field
    (AbstractUser declares is_active as a non-nullable boolean, default true).
-/

/-- A stored additional password hash row (model PasswordHash in models.py):
  password_hash, created_at, and a nullable last_used timestamp. -/
structure PasswordHash where
  password_hash : String
  created_at : Nat
  last_used : Option Nat
deriving DecidableEq, Repr

/-- The credential-relevant part of a User row (models.py).  Profile fields
  (email, names, GPA, biography, ...) are carried by the real model but are
  never read or written by the authentication mechanism under verification,
  so they are omitted.  is_active comes from AbstractUser (default true). -/
structure User where
  username : String
  password : String
  is_active : Bool
  use_additional_hashes : Bool
  additional_hashes : List PasswordHash
deriving DecidableEq, Repr

/-- A Django session, restricted to the one key the mechanism uses.
  needs_password_reset = none models the key being absent from the dict. -/
structure Session where
  needs_password_reset : Option Bool
deriving DecidableEq, Repr

/-- Django's make_password, modelled as an injective encoding of the
  plaintext into the stored-hash string space. -/
def make_password (plaintext : String) : String :=
  "pbkdf2_sha256$" ++ plaintext

/-- Django's check_password(plaintext, stored): true iff the stored hash is
  the hash of the plaintext. -/
def check_password (plaintext stored : String) : Bool :=
  stored == make_password plaintext

/-- ModelBackend.user_can_authenticate: rejects inactive users. -/
def user_can_authenticate (u : User) : Bool :=
  u.is_active

/-- The body of the for-loop in AdditionalHashBackend.authenticate: walk the
  additional hashes in iteration order; on the first record whose hash matches
  the plaintext, set its last_used to the current time and stop.  Returns the
  updated list on a match, none when no record matches. -/
def stampFirstMatch (plaintext : String) (hashes : List PasswordHash) (now : Nat) :
    Option (List PasswordHash) :=
  match hashes with
  | [] => none
  | h :: rest =>
      if check_password plaintext h.password_hash then
        some ({ h with last_used := some now } :: rest)
      else
        (stampFirstMatch plaintext rest now).map (fun tl => h :: tl)

/-- Persisting a mutated user row: the store keyed by username. -/
def replaceUser (users : List User) (uname : String) (u' : User) : List User :=
  users.map (fun v => if v.username == uname then u' else v)

/-- request.session with needs_password_reset set to True. -/
def setNeedsReset (s : Session) : Session :=
  { s with needs_password_reset := some true }

/-- Outcome classification of one authenticate call, as the spec names them:
  no-match (the call returns None), primary-match (the user is returned from
  the primary-password branch), legacy-match (the user is returned from the
  additional-hashes branch). -/
inductive MatchKind where
  | noMatch
  | primaryMatch
  | legacyMatch
deriving DecidableEq, Repr

/-- AdditionalHashBackend.authenticate, body after the username lookup has
  found a user.  Mirrors backends.py lines 23-42: primary check first (with
  user_can_authenticate gating the return), then, if use_additional_hashes,
  the loop over additional hashes; on a loop match the last_used stamp is
  written and the session flag set BEFORE the user_can_authenticate gate,
  exactly as in the source. -/
def authenticateFound (users : List User) (request : Option Session)
    (uname pword : String) (now : Nat) (user : User) :
    MatchKind × List User × Option Session :=
  if check_password pword user.password then
    if user_can_authenticate user then (.primaryMatch, users, request)
    else (.noMatch, users, request)
  else if user.use_additional_hashes then
    match stampFirstMatch pword user.additional_hashes now with
    | some hashes' =>
        let users' := replaceUser users uname { user with additional_hashes := hashes' }
        let request' := request.map setNeedsReset
        if user_can_authenticate user then (.legacyMatch, users', request')
        else (.noMatch, users', request')
    | none => (.noMatch, users, request)
  else (.noMatch, users, request)

/-- AdditionalHashBackend.authenticate (backends.py lines 13-42).
  Arguments: the user store, the request's session (none when authenticate is
  invoked without a request object), the optional username and password, and
  the current time.  Returns the outcome classification together with the
  user store and request session after the call. -/
def authenticate (users : List User) (request : Option Session)
    (username password : Option String) (now : Nat) :
    MatchKind × List User × Option Session :=
  match username, password with
  | some uname, some pword =>
      match users.find? (fun u => u.username == uname) with
      | none => (.noMatch, users, request)
      | some user => authenticateFound users request uname pword now user
  | _, _ => (.noMatch, users, request)

/-- reverse of authentication:force_password_reset_path. -/
def force_password_reset_path : String := "/user/force-reset/"

/-- reverse of authentication:logout. -/
def logout_path : String := "/user/logout/"

/-- The data of an incoming request that the middleware reads:
  request.user.is_authenticated, request.session, request.path. -/
structure Request where
  authenticated : Bool
  session : Session
  path : String
deriving DecidableEq, Repr

/-- What the middleware does with a request: replace it with a redirect, or
  pass it through to normal handling (self.get_response). -/
inductive MwResult where
  | redirectTo (path : String)
  | passThrough
deriving DecidableEq, Repr

/-- PasswordResetRequiredMiddleware.call (middleware.py lines 14-30). -/
def middlewareCall (req : Request) : MwResult :=
  if req.authenticated && req.session.needs_password_reset.getD false then
    if !([force_password_reset_path, logout_path].contains req.path) then
      .redirectTo force_password_reset_path
    else
      .passThrough
  else
    .passThrough

/-- The framework's password-policy validation (validate_password, run by
  SetPasswordForm).  Modelled concretely by its minimum-length rule; the
  claims depend only on the valid/invalid dichotomy. -/
def passes_policy (pword : String) : Bool :=
  8 ≤ pword.length

/-- SetPasswordForm validity: the two entries agree and the new password
  passes policy validation. -/
def form_valid (p1 p2 : String) : Bool :=
  p1 == p2 && passes_policy p2

/-- Outcome of one call to force_password_reset_view. -/
inductive ResetResult where
  | redirectIndex
  | success
  | redisplayForm
deriving DecidableEq, Repr

/-- force_password_reset_view (views.py lines 71-112) for an authenticated
  user.  GET and invalid-POST both re-render the form with no mutation; a
  valid POST sets the new primary hash, clears use_additional_hashes, and
  pops the session flag.  The subsequent login() call only re-binds the
  existing authenticated session and is not part of the returned state. -/
def force_password_reset_view (u : User) (sess : Session) (is_post : Bool)
    (p1 p2 : String) : ResetResult × User × Session :=
  if !(sess.needs_password_reset.getD false) then
    (.redirectIndex, u, sess)
  else if is_post then
    if form_valid p1 p2 then
      let u' := { u with password := make_password p1, use_additional_hashes := false }
      let sess' := { sess with needs_password_reset := none }
      (.success, u', sess')
    else
      (.redisplayForm, u, sess)
  else
    (.redisplayForm, u, sess)

/-- The per-user step of import_users_from_json (import_users.py lines 85-151),
  restricted to the User and PasswordHash state; TestScore, Decision and
  College handling and the profile-field updates (email, names, GPA, ...)
  touch neither use_additional_hashes, nor the primary password, nor the
  PasswordHash rows, and are omitted.  info.password is the exported original
  hash; a falsy value (absent or empty) models the Python truthiness test
  user_info.get given by the source.  For a new user, get_or_create applies the
  defaults dict, which includes use_additional_hashes = True, and a random
  password is hashed in; for an existing user the update branch runs, which
  leaves use_additional_hashes, the primary password and is_active untouched.
  The PasswordHash row is created only when the original hash is truthy and
  (the user was created or has no additional_hashes rows). -/
def importUserStep (users : List User) (username : String)
    (origHash : Option String) (random_password : String) (now : Nat) :
    List User :=
  match users.find? (fun u => u.username == username) with
  | none =>
      let base : User :=
        { username := username
          password := make_password random_password
          is_active := true
          use_additional_hashes := true
          additional_hashes := [] }
      let created :=
        if origHash.getD "" != "" then
          { base with additional_hashes := [⟨origHash.getD "", now, none⟩] }
        else base
      users ++ [created]
  | some u =>
      let u' :=
        if origHash.getD "" != "" && u.additional_hashes.isEmpty then
          { u with additional_hashes := u.additional_hashes ++ [⟨origHash.getD "", now, none⟩] }
        else u
      replaceUser users username u'

/-!
System-level state machine for the invariant claims: one account under test
together with the set of currently-authenticated sessions belonging to it.
Sessions of other accounts never read or write this account's rows or flag,
so they are outside the frame.  A failed login leaves no authenticated
session (the browser's anonymous session is not an authenticated session of
the account and the reset-enforcement gate ignores unauthenticated requests).
-/

/-- One account plus its authenticated sessions. -/
structure SysState where
  account : User
  sessions : List Session
deriving DecidableEq, Repr

/-- A login attempt against the account with the given password: run the
  backend with a fresh session (no needs_password_reset key); on success the
  resulting session becomes a new authenticated session of the account.  The
  account row is persisted as the backend left it (the last_used stamp). -/
def loginOp (st : SysState) (pword : String) (now : Nat) : SysState :=
  let fresh : Session := { needs_password_reset := none }
  let res := authenticate [st.account] (some fresh) (some st.account.username) (some pword) now
  let account' := (res.2.1.find? (fun u => u.username == st.account.username)).getD st.account
  match res.1 with
  | .noMatch => { account := account', sessions := st.sessions }
  | _ => { account := account', sessions := (res.2.2.getD fresh) :: st.sessions }

/-- A POST of the forced-reset form from the i-th authenticated session. -/
def resetOp (st : SysState) (i : Nat) (p1 p2 : String) : SysState :=
  match st.sessions.get? i with
  | none => st
  | some sess =>
      let r := force_password_reset_view st.account sess true p1 p2
      { account := r.2.1, sessions := st.sessions.set i r.2.2 }

/-- Logout from the i-th session: Django's logout flushes the session,
  discarding the flag with it. -/
def logoutOp (st : SysState) (i : Nat) : SysState :=
  { st with sessions := st.sessions.eraseIdx i }

/-- One modeled operation: login, ordinary request handling (the gate either
  redirects or passes the request through, neither of which mutates the
  account or session state), forced reset, or logout. -/
inductive Step : SysState → SysState → Prop
  | login (st : SysState) (pword : String) (now : Nat) : Step st (loginOp st pword now)
  | request (st : SysState) : Step st st
  | reset (st : SysState) (i : Nat) (p1 p2 : String) : Step st (resetOp st i p1 p2)
  | logout (st : SysState) (i : Nat) : Step st (logoutOp st i)

/-- States reachable from an initial state by the modeled operations. -/
def Reachable (init st : SysState) : Prop :=
  Relation.ReflTransGen Step init st

/-!
Spec-side definitions.  These follow the words of the specification (section
4.1) rather than the source, and are compared with the source-derived
definitions in the refinement theorems below.
-/

/-- Spec words: some legacy credential record's hash matches the plaintext. -/
def anyMatch (plaintext : String) (hashes : List PasswordHash) : Bool :=
  hashes.any (fun h => check_password plaintext h.password_hash)

/-- Spec words: the index of the first legacy record (in iteration order)
  whose hash matches the plaintext. -/
def firstMatchIndex (plaintext : String) : List PasswordHash → Option Nat
  | [] => none
  | h :: rest =>
      if check_password plaintext h.password_hash then some 0
      else (firstMatchIndex plaintext rest).map (fun i => i + 1)

/-- Spec words: the list with exactly the i-th record's last_used stamped to
  the current time and everything else unchanged. -/
def stampAt (hashes : List PasswordHash) (i : Nat) (now : Nat) : List PasswordHash :=
  match hashes.get? i with
  | some h => hashes.set i { h with last_used := some now }
  | none => hashes

/-- The verifier contract as the spec states it (section 4.1): unknown
  username gives no-match; a primary hit gives primary-match; otherwise, with
  the fallback flag set, a hit on some legacy record gives legacy-match; else
  no-match. -/
def specVerify (users : List User) (uname pword : String) : MatchKind :=
  match users.find? (fun u => u.username == uname) with
  | none => .noMatch
  | some user =>
      if check_password pword user.password then .primaryMatch
      else if user.use_additional_hashes && anyMatch pword user.additional_hashes then
        .legacyMatch
      else .noMatch

/-- The condition under which the source's fallback loop finds a record:
  the lookup succeeds, the primary check misses, the fallback flag is set,
  and some legacy record matches. -/
def legacyHit (users : List User) (uname pword : String) : Bool :=
  match users.find? (fun u => u.username == uname) with
  | none => false
  | some user =>
      !check_password pword user.password &&
        (user.use_additional_hashes && anyMatch pword user.additional_hashes)

/-!
Concrete instances used by the counterexamples and witnesses.
-/

/-- An inactive account whose submitted password matches its primary hash. -/
def davePrimary : User :=
  { username := "dave"
    password := make_password "pw12345"
    is_active := false
    use_additional_hashes := false
    additional_hashes := [] }

/-- An account with the fallback flag set and one legacy record. -/
def carolLegacy : User :=
  { username := "carol"
    password := make_password "primary0"
    is_active := true
    use_additional_hashes := true
    additional_hashes := [⟨make_password "legacy01", 0, none⟩] }

/-- carolLegacy, deactivated. -/
def carolInactive : User :=
  { carolLegacy with is_active := false }

/-- An imported account: random primary password, fallback enabled, one
  legacy record holding the hash of OldPass!1. -/
def aliceImported : User :=
  { username := "alice"
    password := make_password "R4nd0mPw"
    is_active := true
    use_additional_hashes := true
    additional_hashes := [⟨make_password "OldPass!1", 0, none⟩] }

/-- Initial system state for the C5 counterexample: the imported account,
  no sessions yet. -/
def c5Init : SysState :=
  { account := aliceImported, sessions := [] }

/-- The C5 counterexample trace: two legacy logins (two browsers), then a
  forced reset completed from the most recent session. -/
def c5Bad : SysState :=
  resetOp (loginOp (loginOp c5Init "OldPass!1" 1) "OldPass!1" 2) 0 "NewPass!2" "NewPass!2"

/-- An account that never had fallback enabled, with a legacy record on file. -/
def bobNoFallback : User :=
  { username := "bob"
    password := make_password "bobspass"
    is_active := true
    use_additional_hashes := false
    additional_hashes := [⟨make_password "bobsold1", 0, none⟩] }

/-- Initial system state for the C5 amended-claim witness. -/
def c5WitnessInit : SysState :=
  { account := bobNoFallback, sessions := [{ needs_password_reset := none }] }

/-- A pre-existing account, fallback disabled, that already has a legacy
  record, as seen by a re-run of the import. -/
def erinExisting : User :=
  { username := "erin"
    password := make_password "erinpass"
    is_active := true
    use_additional_hashes := false
    additional_hashes := [⟨"md5$salt$abcdef", 0, none⟩] }

/-- The inductive invariant behind the amended C5: the account's fallback
  flag is off and no authenticated session of the account carries the
  needs-reset flag. -/
def FlagsClear (st : SysState) : Prop :=
  st.account.use_additional_hashes = false ∧
  ∀ s ∈ st.sessions, s.needs_password_reset.getD false = false

/-!
Helper lemmas shared by the claim theorems.
-/

/-- The hash encoding is injective: distinct plaintexts have distinct hashes. -/
lemma make_password_inj {a b : String} (h : make_password a = make_password b) : a = b := by
  have hd := congrArg String.data h
  simp only [make_password, String.data_append] at hd
  exact String.ext (List.append_cancel_left hd)

/-- check_password against a freshly made hash decides plaintext equality. -/
lemma check_password_make (p q : String) :
    check_password p (make_password q) = (q == p) := by
  simp only [check_password, beq_iff_eq]
  by_cases h : q = p
  · simp [h]
  · have hne : make_password q ≠ make_password p := fun hc => h (make_password_inj hc)
    simp [h, hne]

/-- authenticate with both credentials present reduces to the found-user body. -/
lemma authenticate_of_find (users : List User) (req : Option Session)
    (uname pword : String) (now : Nat) (u : User)
    (hfind : users.find? (fun x => x.username == uname) = some u) :
    authenticate users req (some uname) (some pword) now =
      authenticateFound users req uname pword now u := by
  simp [authenticate, hfind]

/-- authenticate with both credentials present and no matching account. -/
lemma authenticate_of_find_none (users : List User) (req : Option Session)
    (uname pword : String) (now : Nat)
    (hfind : users.find? (fun x => x.username == uname) = none) :
    authenticate users req (some uname) (some pword) now = (.noMatch, users, req) := by
  simp [authenticate, hfind]

/-- The fallback loop finds a record exactly when some record matches. -/
lemma stampFirstMatch_eq_none_iff (p : String) (hs : List PasswordHash) (now : Nat) :
    stampFirstMatch p hs now = none ↔ anyMatch p hs = false := by
  induction hs with
  | nil => simp [stampFirstMatch, anyMatch]
  | cons h rest ih =>
      by_cases hc : check_password p h.password_hash
      · simp [stampFirstMatch, anyMatch, hc]
      · simp [stampFirstMatch, anyMatch, hc, ih]

/-- The fallback loop stamps exactly the first matching record: it agrees
  with the spec-side firstMatchIndex / stampAt description. -/
lemma stampFirstMatch_eq_map (p : String) (hs : List PasswordHash) (now : Nat) :
    stampFirstMatch p hs now = (firstMatchIndex p hs).map (fun i => stampAt hs i now) := by
  induction hs with
  | nil => simp [stampFirstMatch, firstMatchIndex]
  | cons h rest ih =>
      by_cases hc : check_password p h.password_hash
      · simp [stampFirstMatch, firstMatchIndex, stampAt, hc]
      · simp only [stampFirstMatch, firstMatchIndex, hc, ih, Bool.false_eq_true,
          if_false, Option.map_map]
        cases hfi : firstMatchIndex p rest with
        | none => simp [hfi]
        | some i =>
            simp only [hfi, Option.map_some', Function.comp]
            cases hg : rest[i]? with
            | none => simp [stampAt, hg]
            | some r => simp [stampAt, hg]

/-- The found-user body when the fallback flag is off: pure primary check,
  no state change. -/
lemma authenticateFound_flag_false (users : List User) (req : Option Session)
    (uname pword : String) (now : Nat) (u : User)
    (hflag : u.use_additional_hashes = false) :
    authenticateFound users req uname pword now u =
      ((if check_password pword u.password then
          (if u.is_active then MatchKind.primaryMatch else MatchKind.noMatch)
        else MatchKind.noMatch), users, req) := by
  unfold authenticateFound user_can_authenticate
  by_cases hc : check_password pword u.password
  · by_cases ha : u.is_active <;> simp [hc, ha]
  · simp [hc, hflag]

/-- Replacing the found user's additional hashes is transparent to the
  username lookup. -/
lemma find?_replace_hashes (users : List User) (uname : String) (u : User)
    (hs : List PasswordHash)
    (hfind : users.find? (fun x => x.username == uname) = some u) :
    (users.map
        (fun v => if v.username == uname then { v with additional_hashes := hs } else v)).find?
      (fun x => x.username == uname) = some { u with additional_hashes := hs } := by
  rw [List.find?_map]
  have hpred : ((fun x : User => x.username == uname) ∘
      (fun v : User => if v.username == uname then { v with additional_hashes := hs } else v)) =
      (fun x : User => x.username == uname) := by
    funext v
    by_cases hv : (v.username == uname) = true <;> simp [Function.comp, hv]
  rw [hpred, hfind]
  have hu := List.find?_some hfind
  have hu' : u.username = uname := by simpa using hu
  simp [hu']

/-!
Claim theorems.
-/

/-- C10: a call to the credential verifier with the username or the password
  argument absent returns no-match with no account lookup and no side effect:
  the result and the untouched state are the same for every user store and
  session, before any hash comparison can take place. -/
theorem c10_missing_credentials_no_match (users : List User) (req : Option Session)
    (uname pword : Option String) (now : Nat) :
    authenticate users req none pword now = (MatchKind.noMatch, users, req) ∧
    authenticate users req uname none now = (MatchKind.noMatch, users, req) := by
  constructor
  · cases pword <;> rfl
  · cases uname <;> rfl

/-- C3: the reset-enforcement gate passes unauthenticated or unflagged
  requests through unchanged; for an authenticated, flagged session it
  redirects every path other than the forced-reset screen and the logout
  endpoint to the forced-reset screen, and passes those two paths through. -/
theorem c3_reset_gate (req : Request) :
    ((req.authenticated = false ∨ req.session.needs_password_reset.getD false = false) →
        middlewareCall req = MwResult.passThrough) ∧
    (req.authenticated = true → req.session.needs_password_reset.getD false = true →
        req.path ≠ force_password_reset_path → req.path ≠ logout_path →
        middlewareCall req = MwResult.redirectTo force_password_reset_path) ∧
    (req.authenticated = true → req.session.needs_password_reset.getD false = true →
        (req.path = force_password_reset_path ∨ req.path = logout_path) →
        middlewareCall req = MwResult.passThrough) := by
  refine ⟨?_, ?_, ?_⟩
  · intro h
    rcases h with h | h <;> simp [middlewareCall, h]
  · intro ha hf h1 h2
    simp [middlewareCall, ha, hf, h1, h2]
  · intro ha hf h
    rcases h with h | h <;> simp [middlewareCall, ha, hf, h]

/-- Witness for c3_reset_gate: a flagged session requesting an ordinary page
  is redirected to the forced-reset screen. -/
theorem c3_reset_gate_witness :
    middlewareCall
        { authenticated := true, session := { needs_password_reset := some true },
          path := "/destinations/" } =
      MwResult.redirectTo force_password_reset_path :=
  (c3_reset_gate
      { authenticated := true, session := { needs_password_reset := some true },
        path := "/destinations/" }).2.1 rfl rfl (by decide) (by decide)

/-- C8: a forced-reset POST that fails form validation redisplays the form
  and mutates nothing: the account row and the session are returned
  unchanged. -/
theorem c8_invalid_reset_no_mutation (u : User) (sess : Session) (p1 p2 : String)
    (hflag : sess.needs_password_reset.getD false = true)
    (hinvalid : form_valid p1 p2 = false) :
    force_password_reset_view u sess true p1 p2 = (ResetResult.redisplayForm, u, sess) := by
  simp [force_password_reset_view, hflag, hinvalid]

/-- Witness for c8_invalid_reset_no_mutation: a too-short new password. -/
theorem c8_invalid_reset_no_mutation_witness :
    force_password_reset_view carolLegacy { needs_password_reset := some true } true
        "short" "short" =
      (ResetResult.redisplayForm, carolLegacy, { needs_password_reset := some true }) :=
  c8_invalid_reset_no_mutation carolLegacy { needs_password_reset := some true }
    "short" "short" (by decide) (by decide)

/-- C2: for an account with the fallback flag off, the verifier never
  returns legacy-match, never mutates the store or session, and its result
  does not depend on the stored legacy records at all (they are never
  consulted). -/
theorem c2_fallback_disabled_inert (users : List User) (req : Option Session)
    (uname pword : String) (now : Nat) (u : User)
    (hfind : users.find? (fun x => x.username == uname) = some u)
    (hflag : u.use_additional_hashes = false) :
    (authenticate users req (some uname) (some pword) now).1 ≠ MatchKind.legacyMatch ∧
    (authenticate users req (some uname) (some pword) now).2.1 = users ∧
    (authenticate users req (some uname) (some pword) now).2.2 = req ∧
    ∀ hs : List PasswordHash,
      (authenticate
          (users.map
            (fun v => if v.username == uname then { v with additional_hashes := hs } else v))
          req (some uname) (some pword) now).1 =
        (authenticate users req (some uname) (some pword) now).1 := by
  have hbase := authenticate_of_find users req uname pword now u hfind
  rw [hbase, authenticateFound_flag_false users req uname pword now u hflag]
  refine ⟨?_, rfl, rfl, ?_⟩
  · by_cases hc : check_password pword u.password
    · by_cases ha : u.is_active <;> simp [hc, ha]
    · simp [hc]
  · intro hs
    have hfind' := find?_replace_hashes users uname u hs hfind
    rw [authenticate_of_find _ req uname pword now _ hfind',
      authenticateFound_flag_false _ req uname pword now _ (by simpa using hflag)]

/-- Witness for c2_fallback_disabled_inert: bobNoFallback submits the exact
  plaintext of his stored legacy record and is not authenticated by it. -/
theorem c2_fallback_disabled_inert_witness :
    (authenticate [bobNoFallback] none (some "bob") (some "bobsold1") 3).1 ≠
        MatchKind.legacyMatch ∧
      (authenticate [bobNoFallback] none (some "bob") (some "bobsold1") 3).2.1 =
        [bobNoFallback] :=
  ⟨(c2_fallback_disabled_inert [bobNoFallback] none "bob" "bobsold1" 3 bobNoFallback
      (by decide) (by decide)).1,
    (c2_fallback_disabled_inert [bobNoFallback] none "bob" "bobsold1" 3 bobNoFallback
      (by decide) (by decide)).2.1⟩

/-- C1 counterexample: davePrimary's submitted plaintext matches the primary
  credential hash, yet the call does not return primary-match (the account is
  inactive, so the backend returns None, a no-match). -/
theorem c1_counterexample :
    check_password "pw12345" davePrimary.password = true ∧
    (authenticate [davePrimary] none (some "dave") (some "pw12345") 0).1 ≠
      MatchKind.primaryMatch := by
  decide

/-- C6 counterexample: for the inactive account carolInactive, a matching
  legacy submission returns no-match, yet the user store is mutated (the
  record's last_used stamp is written). -/
theorem c6_counterexample :
    (authenticate [carolInactive] (some { needs_password_reset := none })
        (some "carol") (some "legacy01") 5).1 = MatchKind.noMatch ∧
    (authenticate [carolInactive] (some { needs_password_reset := none })
        (some "carol") (some "legacy01") 5).2.1 ≠ [carolInactive] := by
  decide

/-- C7 counterexample: the same call returns no-match, yet the session's
  needs_password_reset flag has been set. -/
theorem c7_counterexample :
    (authenticate [carolInactive] (some { needs_password_reset := none })
        (some "carol") (some "legacy01") 5).1 = MatchKind.noMatch ∧
    (authenticate [carolInactive] (some { needs_password_reset := none })
        (some "carol") (some "legacy01") 5).2.2 =
      some { needs_password_reset := some true } := by
  decide

/-- C9 counterexample: erinExisting already exists and already has a legacy
  record; the import step carries an original hash, yet it neither sets the
  fallback flag (still false) nor inserts the carried hash. -/
theorem c9_counterexample :
    importUserStep [erinExisting] "erin" (some "sha1$oldhash") "rnd" 7 = [erinExisting] ∧
    erinExisting.use_additional_hashes = false ∧
    (erinExisting.additional_hashes.map PasswordHash.password_hash).contains
        "sha1$oldhash" = false := by
  decide

/-- When the fallback loop cannot fire (unknown user, primary hit, flag off,
  or no matching record), authenticate leaves the store and session unchanged
  and never returns legacy-match. -/
lemma authenticate_legacyHit_false (users : List User) (req : Option Session)
    (uname pword : String) (now : Nat)
    (h : legacyHit users uname pword = false) :
    (authenticate users req (some uname) (some pword) now).2.1 = users ∧
    (authenticate users req (some uname) (some pword) now).2.2 = req ∧
    (authenticate users req (some uname) (some pword) now).1 ≠ MatchKind.legacyMatch := by
  cases hfind : users.find? (fun x => x.username == uname) with
  | none =>
      rw [authenticate_of_find_none users req uname pword now hfind]
      exact ⟨rfl, rfl, by simp⟩
  | some u =>
      rw [authenticate_of_find users req uname pword now u hfind]
      simp only [legacyHit, hfind] at h
      unfold authenticateFound user_can_authenticate
      by_cases hc : check_password pword u.password = true
      · by_cases ha : u.is_active <;> simp [hc, ha]
      · have hc' : check_password pword u.password = false := by
          simpa using hc
        simp only [hc', Bool.not_false, Bool.true_and] at h
        by_cases hf : u.use_additional_hashes = true
        · have hany : anyMatch pword u.additional_hashes = false := by
            rw [hf] at h; simpa using h
          have hst : stampFirstMatch pword u.additional_hashes now = none :=
            (stampFirstMatch_eq_none_iff pword u.additional_hashes now).mpr hany
          simp [hc', hf, hst]
        · simp [hc', hf]

/-- When the fallback loop fires, authenticate stamps the found record,
  persists it, sets the session flag on the request, and returns legacy-match
  exactly when the account is active. -/
lemma authenticate_legacyHit_true (users : List User) (req : Option Session)
    (uname pword : String) (now : Nat)
    (h : legacyHit users uname pword = true) :
    ∃ u hs', users.find? (fun x => x.username == uname) = some u ∧
      stampFirstMatch pword u.additional_hashes now = some hs' ∧
      authenticate users req (some uname) (some pword) now =
        ((if u.is_active then MatchKind.legacyMatch else MatchKind.noMatch),
          replaceUser users uname { u with additional_hashes := hs' },
          req.map setNeedsReset) := by
  cases hfind : users.find? (fun x => x.username == uname) with
  | none => simp only [legacyHit, hfind] at h; cases h
  | some u =>
      simp only [legacyHit, hfind, Bool.and_eq_true, Bool.not_eq_true'] at h
      obtain ⟨hc, hf, hany⟩ := h
      cases hst : stampFirstMatch pword u.additional_hashes now with
      | none =>
          have := (stampFirstMatch_eq_none_iff pword u.additional_hashes now).mp hst
          rw [this] at hany; cases hany
      | some hs' =>
          refine ⟨u, hs', rfl, hst, ?_⟩
          rw [authenticate_of_find users req uname pword now u hfind]
          unfold authenticateFound user_can_authenticate
          by_cases ha : u.is_active <;> simp [hc, hf, hst, ha]

/-- The found account is active when every looked-up account is. -/
lemma find_all_active {users : List User} {uname : String} {u : User}
    (hfind : users.find? (fun x => x.username == uname) = some u)
    (hall : (users.find? (fun x => x.username == uname)).all User.is_active = true) :
    u.is_active = true := by
  rw [hfind] at hall
  simpa using hall

/-- For an active looked-up account, the legacy-match result coincides with
  the fallback loop finding a record. -/
lemma authenticate_legacyMatch_iff (users : List User) (req : Option Session)
    (uname pword : String) (now : Nat)
    (hall : (users.find? (fun x => x.username == uname)).all User.is_active = true) :
    ((authenticate users req (some uname) (some pword) now).1 = MatchKind.legacyMatch ↔
      legacyHit users uname pword = true) := by
  cases hh : legacyHit users uname pword with
  | false =>
      have hfalse := authenticate_legacyHit_false users req uname pword now hh
      exact ⟨fun habs => absurd habs hfalse.2.2, fun habs => by cases habs⟩
  | true =>
      obtain ⟨u, hs', hfind, hst, heq⟩ :=
        authenticate_legacyHit_true users req uname pword now hh
      have ha : u.is_active = true := find_all_active hfind hall
      rw [heq]
      simp [ha]

/-- C6 (amended): authenticate mutates persistent state exactly when the
  fallback loop finds a matching record (the found account's primary check
  missed, its fallback flag is on, and some legacy record matches): then the
  store is rewritten with that record's last_used stamped and nothing else.
  Otherwise the store and session are unchanged; in particular a
  primary-match result changes nothing.  A legacy-match result always means
  the stamp happened, and for an active account the stamp happens exactly on
  a legacy-match result; for an inactive account the stamp can also
  accompany a no-match result. -/
theorem c6_side_effects (users : List User) (req : Option Session)
    (uname pword : String) (now : Nat) :
    (legacyHit users uname pword = false →
      (authenticate users req (some uname) (some pword) now).2.1 = users ∧
      (authenticate users req (some uname) (some pword) now).2.2 = req) ∧
    (legacyHit users uname pword = true →
      ∃ u hs', users.find? (fun x => x.username == uname) = some u ∧
        stampFirstMatch pword u.additional_hashes now = some hs' ∧
        (authenticate users req (some uname) (some pword) now).2.1 =
          replaceUser users uname { u with additional_hashes := hs' }) ∧
    ((authenticate users req (some uname) (some pword) now).1 = MatchKind.primaryMatch →
      (authenticate users req (some uname) (some pword) now).2.1 = users ∧
      (authenticate users req (some uname) (some pword) now).2.2 = req) ∧
    ((authenticate users req (some uname) (some pword) now).1 = MatchKind.legacyMatch →
      legacyHit users uname pword = true) ∧
    ((users.find? (fun x => x.username == uname)).all User.is_active = true →
      ((authenticate users req (some uname) (some pword) now).1 = MatchKind.legacyMatch ↔
        legacyHit users uname pword = true)) := by
  refine ⟨?_, ?_, ?_, ?_,
    fun hall => authenticate_legacyMatch_iff users req uname pword now hall⟩
  · intro hh
    have hfalse := authenticate_legacyHit_false users req uname pword now hh
    exact ⟨hfalse.1, hfalse.2.1⟩
  · intro hh
    obtain ⟨u, hs', hfind, hst, heq⟩ :=
      authenticate_legacyHit_true users req uname pword now hh
    exact ⟨u, hs', hfind, hst, by rw [heq]⟩
  · intro hprim
    cases hh : legacyHit users uname pword with
    | false =>
        have hfalse := authenticate_legacyHit_false users req uname pword now hh
        exact ⟨hfalse.1, hfalse.2.1⟩
    | true =>
        obtain ⟨u, hs', hfind, hst, heq⟩ :=
          authenticate_legacyHit_true users req uname pword now hh
        rw [heq] at hprim
        by_cases ha : u.is_active = true <;> simp [ha] at hprim
  · intro hleg
    cases hh : legacyHit users uname pword with
    | true => rfl
    | false =>
        have hfalse := authenticate_legacyHit_false users req uname pword now hh
        exact absurd hleg hfalse.2.2

/-- Witness for c6_side_effects: carolLegacy's legacy login stamps her
  matching record. -/
theorem c6_side_effects_witness :
    ∃ u hs', [carolLegacy].find? (fun x => x.username == "carol") = some u ∧
      stampFirstMatch "legacy01" u.additional_hashes 5 = some hs' ∧
      (authenticate [carolLegacy] (some { needs_password_reset := none })
          (some "carol") (some "legacy01") 5).2.1 =
        replaceUser [carolLegacy] "carol" { u with additional_hashes := hs' } :=
  (c6_side_effects [carolLegacy] (some { needs_password_reset := none })
      "carol" "legacy01" 5).2.1 (by decide)

/-- C7 (amended): with a request present, the session's needs_password_reset
  flag is set exactly when the fallback loop finds a matching record, which
  for an active account is exactly a legacy-match outcome; a primary-match
  outcome leaves the session unchanged.  For an inactive account the flag is
  also set when a legacy record matches even though the outcome is no-match
  (the failed login still wrote the flag into the session). -/
theorem c7_flag_trigger (users : List User) (s : Session)
    (uname pword : String) (now : Nat) :
    (legacyHit users uname pword = true →
      (authenticate users (some s) (some uname) (some pword) now).2.2 =
        some { s with needs_password_reset := some true }) ∧
    (legacyHit users uname pword = false →
      (authenticate users (some s) (some uname) (some pword) now).2.2 = some s) ∧
    ((authenticate users (some s) (some uname) (some pword) now).1 =
        MatchKind.primaryMatch →
      (authenticate users (some s) (some uname) (some pword) now).2.2 = some s) ∧
    ((users.find? (fun x => x.username == uname)).all User.is_active = true →
      ((authenticate users (some s) (some uname) (some pword) now).1 =
          MatchKind.legacyMatch ↔
        legacyHit users uname pword = true)) := by
  refine ⟨?_, ?_, ?_,
    fun hall => authenticate_legacyMatch_iff users (some s) uname pword now hall⟩
  · intro hh
    obtain ⟨u, hs', hfind, hst, heq⟩ :=
      authenticate_legacyHit_true users (some s) uname pword now hh
    rw [heq]
    rfl
  · intro hh
    exact (authenticate_legacyHit_false users (some s) uname pword now hh).2.1
  · intro hprim
    cases hh : legacyHit users uname pword with
    | false =>
        exact (authenticate_legacyHit_false users (some s) uname pword now hh).2.1
    | true =>
        obtain ⟨u, hs', hfind, hst, heq⟩ :=
          authenticate_legacyHit_true users (some s) uname pword now hh
        rw [heq] at hprim
        by_cases ha : u.is_active = true <;> simp [ha] at hprim

/-- Witness for c7_flag_trigger: carolLegacy's legacy login sets the
  session flag. -/
theorem c7_flag_trigger_witness :
    (authenticate [carolLegacy] (some { needs_password_reset := none })
        (some "carol") (some "legacy01") 5).2.2 =
      some { needs_password_reset := some true } :=
  (c7_flag_trigger [carolLegacy] { needs_password_reset := none }
      "carol" "legacy01" 5).1 (by decide)

/-- C1 (amended): provided the looked-up account is active, the verifier
  returns exactly the spec contract's outcome — no-match for an unknown
  username, primary-match on a primary-hash hit, legacy-match when the
  fallback flag is on and some legacy record matches, no-match otherwise —
  and on a legacy hit the record stamped is exactly the first matching one
  in iteration order.  (For an inactive account the verifier returns
  no-match even when a credential matches; see the counterexample.) -/
theorem c1_verifier_refines_spec (users : List User) (req : Option Session)
    (uname pword : String) (now : Nat)
    (hactive : (users.find? (fun x => x.username == uname)).all User.is_active = true) :
    (authenticate users req (some uname) (some pword) now).1 =
      specVerify users uname pword ∧
    ∀ u i, users.find? (fun x => x.username == uname) = some u →
      check_password pword u.password = false →
      u.use_additional_hashes = true →
      firstMatchIndex pword u.additional_hashes = some i →
      (authenticate users req (some uname) (some pword) now).2.1 =
        replaceUser users uname
          { u with additional_hashes := stampAt u.additional_hashes i now } := by
  cases hfind : users.find? (fun x => x.username == uname) with
  | none =>
      rw [authenticate_of_find_none users req uname pword now hfind]
      constructor
      · simp [specVerify, hfind]
      · intro u i hu
        cases hu
  | some u =>
      have ha : u.is_active = true := find_all_active hfind hactive
      rw [authenticate_of_find users req uname pword now u hfind]
      unfold authenticateFound user_can_authenticate
      by_cases hc : check_password pword u.password = true
      · constructor
        · simp [specVerify, hfind, hc, ha]
        · intro v i hv hcv _ _
          obtain rfl := Option.some.inj hv
          rw [hc] at hcv
          cases hcv
      · have hc' : check_password pword u.password = false := by simpa using hc
        by_cases hf : u.use_additional_hashes = true
        · cases hst : stampFirstMatch pword u.additional_hashes now with
          | some hs' =>
              have hany : anyMatch pword u.additional_hashes = true := by
                by_contra hno
                have hnone :=
                  (stampFirstMatch_eq_none_iff pword u.additional_hashes now).mpr
                    (by simpa using hno)
                rw [hnone] at hst
                cases hst
              constructor
              · simp [specVerify, hfind, hc', hf, hany, ha, hst]
              · intro v i hv hcv hfv hfi
                obtain rfl := Option.some.inj hv
                have hmap := stampFirstMatch_eq_map pword u.additional_hashes now
                rw [hst, hfi] at hmap
                have hs'eq : hs' = stampAt u.additional_hashes i now :=
                  Option.some.inj hmap
                by_cases hav : u.is_active = true <;>
                  simp [hc', hfv, hst, hav, hs'eq]
          | none =>
              have hany : anyMatch pword u.additional_hashes = false :=
                (stampFirstMatch_eq_none_iff pword u.additional_hashes now).mp hst
              constructor
              · simp [specVerify, hfind, hc', hf, hany, hst]
              · intro v i hv hcv hfv hfi
                obtain rfl := Option.some.inj hv
                have hmap := stampFirstMatch_eq_map pword u.additional_hashes now
                rw [hst, hfi] at hmap
                cases hmap
        · have hf' : u.use_additional_hashes = false := by simpa using hf
          constructor
          · simp [specVerify, hfind, hc', hf']
          · intro v i hv hcv hfv hfi
            obtain rfl := Option.some.inj hv
            rw [hf'] at hfv
            cases hfv

/-- Witness for c1_verifier_refines_spec: carolLegacy's legacy login agrees
  with the spec contract and stamps her first (only) record. -/
theorem c1_verifier_refines_spec_witness :
    (authenticate [carolLegacy] (some { needs_password_reset := none })
        (some "carol") (some "legacy01") 5).1 =
      specVerify [carolLegacy] "carol" "legacy01" ∧
    (authenticate [carolLegacy] (some { needs_password_reset := none })
        (some "carol") (some "legacy01") 5).2.1 =
      replaceUser [carolLegacy] "carol"
        { carolLegacy with
            additional_hashes := stampAt carolLegacy.additional_hashes 0 5 } :=
  ⟨(c1_verifier_refines_spec [carolLegacy] (some { needs_password_reset := none })
      "carol" "legacy01" 5 (by decide)).1,
    (c1_verifier_refines_spec [carolLegacy] (some { needs_password_reset := none })
      "carol" "legacy01" 5 (by decide)).2 carolLegacy 0 (by decide) (by decide)
      (by decide) (by decide)⟩

/-- The singleton store lookup finds the stored account. -/
lemma find?_singleton_self (a : User) :
    List.find? (fun x => x.username == a.username) [a] = some a := by
  simp [List.find?]

/-- C4: after a successful forced-reset submission (session flagged, form
  valid, account active — a successful submission can only come from an
  authenticated session, which requires an active account), the primary hash
  is the hash of the new password, the fallback flag is cleared, the session
  flag is removed; every plaintext other than the new password (the old one
  in particular) then yields no-match on both the primary and the legacy
  path, and the new plaintext yields primary-match only. -/
theorem c4_forced_reset_success (u : User) (sess : Session) (req : Option Session)
    (old p1 p2 : String) (now : Nat)
    (hflag : sess.needs_password_reset.getD false = true)
    (hvalid : form_valid p1 p2 = true)
    (hactive : u.is_active = true)
    (hold : old ≠ p1) :
    (force_password_reset_view u sess true p1 p2).1 = ResetResult.success ∧
    (force_password_reset_view u sess true p1 p2).2.1.password = make_password p1 ∧
    (force_password_reset_view u sess true p1 p2).2.1.use_additional_hashes = false ∧
    (force_password_reset_view u sess true p1 p2).2.2.needs_password_reset = none ∧
    authenticate [(force_password_reset_view u sess true p1 p2).2.1] req
        (some u.username) (some old) now =
      (MatchKind.noMatch, [(force_password_reset_view u sess true p1 p2).2.1], req) ∧
    (authenticate [(force_password_reset_view u sess true p1 p2).2.1] req
        (some u.username) (some p1) now).1 = MatchKind.primaryMatch := by
  have hview : force_password_reset_view u sess true p1 p2 =
      (ResetResult.success,
        { u with password := make_password p1, use_additional_hashes := false },
        { sess with needs_password_reset := none }) := by
    simp [force_password_reset_view, hflag, hvalid]
  rw [hview]
  refine ⟨rfl, rfl, rfl, rfl, ?_, ?_⟩
  · have hfind := find?_singleton_self
      { u with password := make_password p1, use_additional_hashes := false }
    rw [authenticate_of_find _ req u.username old now _ hfind,
      authenticateFound_flag_false _ req u.username old now _ rfl]
    have hc : check_password old (make_password p1) = false := by
      rw [check_password_make]
      exact beq_eq_false_iff_ne.mpr (fun hpe => hold hpe.symm)
    simp [hc]
  · have hfind := find?_singleton_self
      { u with password := make_password p1, use_additional_hashes := false }
    rw [authenticate_of_find _ req u.username p1 now _ hfind,
      authenticateFound_flag_false _ req u.username p1 now _ rfl]
    have hc : check_password p1 (make_password p1) = true := by
      rw [check_password_make]
      exact beq_self_eq_true p1
    simp [hc, hactive]

/-- Witness for c4_forced_reset_success: carolLegacy resets to NewPass!2;
  OldPass!1 no longer matches, NewPass!2 is a primary match. -/
theorem c4_forced_reset_success_witness :
    (force_password_reset_view carolLegacy { needs_password_reset := some true }
        true "NewPass!2" "NewPass!2").1 = ResetResult.success ∧
    (authenticate
        [(force_password_reset_view carolLegacy { needs_password_reset := some true }
            true "NewPass!2" "NewPass!2").2.1] none
        (some carolLegacy.username) (some "NewPass!2") 9).1 = MatchKind.primaryMatch :=
  ⟨(c4_forced_reset_success carolLegacy { needs_password_reset := some true } none
      "OldPass!1" "NewPass!2" "NewPass!2" 9 (by decide) (by decide) (by decide)
      (by decide)).1,
    (c4_forced_reset_success carolLegacy { needs_password_reset := some true } none
      "OldPass!1" "NewPass!2" "NewPass!2" 9 (by decide) (by decide) (by decide)
      (by decide)).2.2.2.2.2⟩

/-- C9 (amended): for a newly created account the import hashes a random
  primary password, enables the fallback flag (via the get_or_create
  defaults), and, when the export carries an original hash, inserts it
  verbatim as the sole legacy record.  For a pre-existing account the
  fallback flag and the primary password are left unchanged, and the carried
  hash is inserted (verbatim) only when the account has no legacy records
  yet; otherwise no record is inserted. -/
theorem c9_import_step (users : List User) (username : String)
    (origHash : Option String) (random_password : String) (now : Nat) :
    (users.find? (fun x => x.username == username) = none →
      origHash.getD "" ≠ "" →
      importUserStep users username origHash random_password now =
        users ++
          [{ username := username, password := make_password random_password,
             is_active := true, use_additional_hashes := true,
             additional_hashes := [⟨origHash.getD "", now, none⟩] }]) ∧
    (∀ u, users.find? (fun x => x.username == username) = some u →
      ∃ u', importUserStep users username origHash random_password now =
          replaceUser users username u' ∧
        u'.use_additional_hashes = u.use_additional_hashes ∧
        u'.password = u.password ∧
        u'.is_active = u.is_active ∧
        u'.additional_hashes =
          (if origHash.getD "" != "" && u.additional_hashes.isEmpty then
            u.additional_hashes ++ [⟨origHash.getD "", now, none⟩]
          else u.additional_hashes)) := by
  constructor
  · intro hfind hhash
    have hne : (origHash.getD "" != "") = true := by
      simpa using hhash
    simp [importUserStep, hfind, hne]
  · intro u hfind
    by_cases hcond : (origHash.getD "" != "" && u.additional_hashes.isEmpty) = true
    · refine ⟨{ u with additional_hashes :=
          u.additional_hashes ++ [⟨origHash.getD "", now, none⟩] }, ?_, rfl, rfl, rfl, ?_⟩
      · simp [importUserStep, hfind, hcond]
      · simp [hcond]
    · have hcond' : (origHash.getD "" != "" && u.additional_hashes.isEmpty) = false := by
        simpa using hcond
      refine ⟨u, ?_, rfl, rfl, rfl, ?_⟩
      · simp [importUserStep, hfind, hcond']
      · simp [hcond']

/-- Witness for c9_import_step: importing a fresh account with an original
  hash creates it with the fallback flag on and the hash stored verbatim. -/
theorem c9_import_step_witness :
    importUserStep [] "fred" (some "sha1$oldhash") "rnd12345" 7 =
      [{ username := "fred", password := make_password "rnd12345",
         is_active := true, use_additional_hashes := true,
         additional_hashes := [⟨"sha1$oldhash", 7, none⟩] }] :=
  (c9_import_step [] "fred" (some "sha1$oldhash") "rnd12345" 7).1 (by decide) (by decide)

/-- A login against an account with the fallback flag off leaves the account
  unchanged and at most adds one fresh, unflagged session. -/
lemma loginOp_flag_false (st : SysState) (pword : String) (now : Nat)
    (h : st.account.use_additional_hashes = false) :
    (loginOp st pword now).account = st.account ∧
    ((loginOp st pword now).sessions = st.sessions ∨
      (loginOp st pword now).sessions =
        { needs_password_reset := none } :: st.sessions) := by
  have hauth := authenticate_of_find [st.account] (some { needs_password_reset := none })
      st.account.username pword now st.account (find?_singleton_self st.account)
  rw [authenticateFound_flag_false _ _ _ _ _ _ h] at hauth
  simp only [loginOp, hauth]
  by_cases hc : check_password pword st.account.password = true
  · by_cases ha : st.account.is_active = true <;>
      simp [hc, ha, find?_singleton_self]
  · simp [hc, find?_singleton_self]

/-- Logins preserve the invariant. -/
lemma flagsClear_loginOp (st : SysState) (pword : String) (now : Nat)
    (h : FlagsClear st) : FlagsClear (loginOp st pword now) := by
  obtain ⟨hacc, hsess⟩ := loginOp_flag_false st pword now h.1
  constructor
  · rw [hacc]
    exact h.1
  · rcases hsess with hs | hs <;> rw [hs]
    · exact h.2
    · intro s hmem
      rcases List.mem_cons.mp hmem with rfl | hmem
      · rfl
      · exact h.2 s hmem

/-- Forced-reset POSTs preserve the invariant (with no session flagged, the
  view just redirects away and mutates nothing). -/
lemma flagsClear_resetOp (st : SysState) (i : Nat) (p1 p2 : String)
    (h : FlagsClear st) : FlagsClear (resetOp st i p1 p2) := by
  unfold resetOp
  cases hg : st.sessions.get? i with
  | none => exact h
  | some sess =>
      have hsess : sess.needs_password_reset.getD false = false :=
        h.2 sess (List.get?_mem hg)
      have hview : force_password_reset_view st.account sess true p1 p2 =
          (ResetResult.redirectIndex, st.account, sess) := by
        simp [force_password_reset_view, hsess]
      simp only [hview]
      refine ⟨h.1, fun s hs => ?_⟩
      rcases List.mem_or_eq_of_mem_set hs with hmem | rfl
      · exact h.2 s hmem
      · exact hsess

/-- Logouts preserve the invariant. -/
lemma flagsClear_logoutOp (st : SysState) (i : Nat)
    (h : FlagsClear st) : FlagsClear (logoutOp st i) :=
  ⟨h.1, fun s hs => h.2 s ((List.eraseIdx_sublist st.sessions i).subset hs)⟩

/-- The invariant holds in every reachable state. -/
lemma flagsClear_reachable (init st : SysState) (h : FlagsClear init)
    (hr : Reachable init st) : FlagsClear st := by
  induction hr with
  | refl => exact h
  | tail _ hstep ih =>
      cases hstep with
      | login pword now => exact flagsClear_loginOp _ pword now ih
      | request => exact ih
      | reset i p1 p2 => exact flagsClear_resetOp _ i p1 p2 ih
      | logout i => exact flagsClear_logoutOp _ i ih

/-- C5 (amended): if the account's legacy-fallback flag is false initially
  and none of its sessions is flagged, then in every state reachable by the
  modeled operations the flag is still false and the reset-enforcement gate
  passes every request of every authenticated session of the account
  through, regardless of the legacy credential records on file.  (When the
  flag starts true, a forced reset clears only the resetting session's
  needs-reset flag, so another previously flagged session of the account can
  still be redirected even though the account flag is already false; see the
  counterexample.) -/
theorem c5_flag_false_gate_inert (init st : SysState)
    (h0 : init.account.use_additional_hashes = false)
    (h1 : ∀ s ∈ init.sessions, s.needs_password_reset.getD false = false)
    (hr : Reachable init st) :
    st.account.use_additional_hashes = false ∧
    ∀ s ∈ st.sessions, ∀ p : String,
      middlewareCall { authenticated := true, session := s, path := p } =
        MwResult.passThrough := by
  have hinv := flagsClear_reachable init st ⟨h0, h1⟩ hr
  refine ⟨hinv.1, fun s hs p => ?_⟩
  simp [middlewareCall, hinv.2 s hs]

/-- Witness for c5_flag_false_gate_inert: bobNoFallback's session, with a
  legacy record on file, passes straight through the gate. -/
theorem c5_flag_false_gate_inert_witness :
    middlewareCall
        { authenticated := true, session := { needs_password_reset := none },
          path := "/destinations/" } = MwResult.passThrough :=
  (c5_flag_false_gate_inert c5WitnessInit c5WitnessInit (by decide) (by decide)
      Relation.ReflTransGen.refl).2 { needs_password_reset := none } (by decide)
    "/destinations/"

/-- C5 counterexample: starting from the imported account alice with the
  fallback flag on, two legacy logins followed by a forced reset from the
  newer session reach a state in which the account's flag is false, yet the
  older authenticated session is still flagged and the gate redirects it to
  the forced-reset screen. -/
theorem c5_counterexample :
    Reachable c5Init c5Bad ∧
    c5Bad.account.use_additional_hashes = false ∧
    ∃ s, c5Bad.sessions.get? 1 = some s ∧
      middlewareCall { authenticated := true, session := s, path := "/destinations/" } =
        MwResult.redirectTo force_password_reset_path := by
  refine ⟨?_, by decide,
    ⟨{ needs_password_reset := some true }, by decide, by decide⟩⟩
  exact Relation.ReflTransGen.tail
    (Relation.ReflTransGen.tail
      (Relation.ReflTransGen.single (Step.login c5Init "OldPass!1" 1))
      (Step.login (loginOp c5Init "OldPass!1" 1) "OldPass!1" 2))
    (Step.reset (loginOp (loginOp c5Init "OldPass!1" 1) "OldPass!1" 2) 0
      "NewPass!2" "NewPass!2")
